import Mathlib

/-
Verification of the settlement and synchronization layer of GORTRASHSOCIAL
(src/src/App.jsx) against its natural-language specification.

The mirror store (Supabase tables profiles / wallets / posts / comments /
notifications) is embedded as lists of records; the connected client's
Local State Cache (the React state `walletData`, `currentUserProfile`,
`currentWalletAddress`) is embedded as a `ClientState`.  Each handler of
App.jsx is translated line by line into a pure function from the pair
(mirror store, client state) to a new mirror store; the external ledger
(Solana transfer submission + confirmation, lines 925-944 and 1093-1112)
is abstracted by a boolean `ledgerOk` telling whether the submission and
confirmation steps succeeded, since every mirror write occurs strictly
after those steps in the source.
-/

namespace GorSocial

/-- One entry of a wallet's `tickets_holding` jsonb array. -/
structure TicketHolding where
  wallet_address : String
  count : Int
  username : String
deriving DecidableEq

/-- Row of the `wallets` table: off-chain balance mirror plus ticket holdings. -/
structure Wallet where
  wallet_address : String
  gor_balance : Int
  tickets_holding : List TicketHolding
deriving DecidableEq

/-- Row of the `profiles` table. -/
structure Profile where
  wallet_address : String
  username : String
  bio : String
  followers : List String
  following : List String
  tickets_earned : Int
  blocked_users : List String
deriving DecidableEq

/-- Row of the `posts` table. -/
structure Post where
  id : Nat
  author_address : String
  username : String
  content : String
  likes : List String
  reposts : List String
  likes_count : Int
  reposts_count : Int
  comments_count : Int
deriving DecidableEq

/-- Row of the `comments` table (the generated id column is irrelevant here). -/
structure Comment where
  post_id : Nat
  author_address : String
  username : String
  content : String
deriving DecidableEq

/-- Row of the `notifications` table. -/
structure Notification where
  recipient_address : String
  sender_address : String
  type : String
  message : String
  post_id : Option Nat
  read : Bool
deriving DecidableEq

/-- The whole off-chain mirror store. -/
structure MirrorStore where
  profiles : List Profile
  wallets : List Wallet
  posts : List Post
  comments : List Comment
  notifications : List Notification
deriving DecidableEq

/-- The connected client's Local State Cache: the React state variables used by
the handlers (`currentWalletAddress`, `currentUserProfile`, `walletData`). -/
structure ClientState where
  currentWalletAddress : String
  currentUserProfile : Profile
  walletData : Wallet
deriving DecidableEq

/-- Mirror Store Gateway read `select().eq(key, k).single()`: first record whose
key column equals `k` (the key columns are primary keys, hence unique in any
reachable store). -/
def findBy {α κ : Type} [DecidableEq κ] (key : α → κ) : List α → κ → Option α
  | [], _ => none
  | x :: xs, k => if key x = k then some x else findBy key xs k

/-- Mirror Store Gateway write `update(patch).eq(key, k)`: patch every record
whose key column equals `k`; an unconditional last-writer-wins point update. -/
def updateBy {α κ : Type} [DecidableEq κ] (key : α → κ) (f : α → α) : List α → κ → List α
  | [], _ => []
  | x :: xs, k => (if key x = k then f x else x) :: updateBy key f xs k

/-- JS `array.filter(x => x !== a)` on address lists. -/
def filterNe : List String → String → List String
  | [], _ => []
  | x :: xs, a => if x = a then filterNe xs a else x :: filterNe xs a

/-- App.jsx lines 951-957: `findIndex` on the holdings followed by an update of
the found index, incrementing that entry's count. -/
def bumpFirst : List TicketHolding → String → List TicketHolding
  | [], _ => []
  | t :: ts, a =>
    if t.wallet_address = a then { t with count := t.count + 1 } :: ts
    else t :: bumpFirst ts a

/-- App.jsx lines 1031-1036: decrement the count of the first holding entry for
`a` and splice the entry out when the decremented count is 0. -/
def decFirst : List TicketHolding → String → List TicketHolding
  | [], _ => []
  | t :: ts, a =>
    if t.wallet_address = a then
      (if t.count - 1 = 0 then ts else { t with count := t.count - 1 } :: ts)
    else t :: decFirst ts a

/-- Read a wallet row by primary key. -/
def findWallet (store : MirrorStore) (addr : String) : Option Wallet :=
  findBy Wallet.wallet_address store.wallets addr

/-- Read a profile row by primary key. -/
def findProfile (store : MirrorStore) (addr : String) : Option Profile :=
  findBy Profile.wallet_address store.profiles addr

/-- Read a post row by primary key. -/
def findPost (store : MirrorStore) (postId : Nat) : Option Post :=
  findBy Post.id store.posts postId

/-- Balance of an optionally-present wallet row, 0 when absent (the reading
convention of App.jsx line 1135). -/
def balOf : Option Wallet → Int
  | some w => w.gor_balance
  | none => 0

/-- Mirrored balance of an address, 0 when no wallet row exists. -/
def walletBalance (store : MirrorStore) (addr : String) : Int :=
  balOf (findWallet store addr)

/-- Supabase `upsert({wallet_address, gor_balance}, {onConflict})` of App.jsx
line 1139: patch `gor_balance` of the existing row, or insert a fresh row whose
remaining columns take their defaults (empty holdings). -/
def upsertWalletBalance (ws : List Wallet) (addr : String) (bal : Int) : List Wallet :=
  if addr ∈ ws.map Wallet.wallet_address then
    updateBy Wallet.wallet_address (fun w => { w with gor_balance := bal }) ws addr
  else ws ++ [⟨addr, bal, []⟩]

/-- Sum of mirrored balances over all wallet rows. -/
def sumBal (ws : List Wallet) : Int :=
  (ws.map Wallet.gor_balance).sum

/-- Terminal status of one settlement attempt. `validationError` is a
precondition failure before any I/O; `ledgerError` covers a rejected or
unconfirmed ledger transfer; `mirrorError` is a thrown mirror read
(`.single()` on a missing row) caught by the handler's catch block. -/
inductive SettleOutcome where
  | validationError
  | ledgerError
  | mirrorError
  | ok
deriving DecidableEq

/-- Result of a settlement handler: its outcome, whether a ledger submission
was attempted, and the mirror store it leaves behind. -/
structure SettleResult where
  outcome : SettleOutcome
  ledgerAttempted : Bool
  store : MirrorStore
deriving DecidableEq

/-- Embedding of `handleTip` (App.jsx lines 1072-1156).  Prechecks in source
order: self-target (1077), cached balance below amount (1081), non-positive
amount (1085); then the ledger transfer (1093-1112), abstracted by `ledgerOk`;
then the sender update from the cached baseline (1117-1120), the fresh read of
the receiver (1125-1135, missing row tolerated as balance 0), the receiver
upsert (1137-1139) and the tip notification (1145-1151). -/
def handleTip (store : MirrorStore) (client : ClientState) (targetAddress : String)
    (amount : Int) (ledgerOk : Bool) : SettleResult :=
  if client.currentWalletAddress = targetAddress then ⟨.validationError, false, store⟩
  else if client.walletData.gor_balance < amount then ⟨.validationError, false, store⟩
  else if amount ≤ 0 then ⟨.validationError, false, store⟩
  else if ledgerOk = false then ⟨.ledgerError, true, store⟩
  else
    let senderWallets :=
      updateBy Wallet.wallet_address
        (fun w => { w with gor_balance := client.walletData.gor_balance - amount })
        store.wallets client.currentWalletAddress
    let store1 : MirrorStore := { store with wallets := senderWallets }
    let receiverCurrentBalance : Int := balOf (findWallet store1 targetAddress)
    let receiverWallets :=
      upsertWalletBalance store1.wallets targetAddress (receiverCurrentBalance + amount)
    let store2 : MirrorStore := { store1 with wallets := receiverWallets }
    let tipNotif : Notification :=
      ⟨targetAddress, client.currentWalletAddress, "tip",
        client.currentUserProfile.username ++ " tipped you GOR", none, false⟩
    let store3 : MirrorStore :=
      { store2 with notifications := store2.notifications ++ [tipNotif] }
    ⟨.ok, true, store3⟩

/-- App.jsx lines 950-968: the buyer's new holdings list.  When no entry for
the target exists the target profile's username is freshly read for
denormalization; a missing target profile throws (`targetProfileError`),
yielding `none` before any write has happened. -/
def holdingsAfterBuy (store : MirrorStore) (client : ClientState)
    (targetAddress : String) : Option (List TicketHolding) :=
  match findBy TicketHolding.wallet_address client.walletData.tickets_holding targetAddress with
  | some _ => some (bumpFirst client.walletData.tickets_holding targetAddress)
  | none =>
    match findProfile store targetAddress with
    | some targetProfile =>
      some (client.walletData.tickets_holding ++ [⟨targetAddress, 1, targetProfile.username⟩])
    | none => none

/-- App.jsx lines 982-1005, the tail of `handleBuyTicket` after the buyer
wallet update produced `store1`: freshly read the target profile (a missing
row throws `targetUserError` after the wallet write already happened),
increment its `tickets_earned`, and insert the `ticket_buy` notification. -/
def buyProfilePhase (store1 : MirrorStore) (client : ClientState)
    (targetAddress : String) : SettleResult :=
  match findProfile store1 targetAddress with
  | none => ⟨.mirrorError, true, store1⟩
  | some targetUser =>
    let targetProfiles :=
      updateBy Profile.wallet_address
        (fun p => { p with tickets_earned := targetUser.tickets_earned + 1 })
        store1.profiles targetAddress
    let store2 : MirrorStore := { store1 with profiles := targetProfiles }
    let buyNotif : Notification :=
      ⟨targetAddress, client.currentWalletAddress, "ticket_buy",
        client.currentUserProfile.username ++ " bought a ticket for you", none, false⟩
    let store3 : MirrorStore :=
      { store2 with notifications := store2.notifications ++ [buyNotif] }
    ⟨.ok, true, store3⟩

/-- Embedding of `handleBuyTicket` (App.jsx lines 908-1010).  Prechecks in
source order: self-target (913), cached balance below 1 (917); then the ledger
transfer of 1 unit (925-944); then the buyer wallet update from the cached
baseline (950-979) and the target-profile phase `buyProfilePhase` (982-1005). -/
def handleBuyTicket (store : MirrorStore) (client : ClientState)
    (targetAddress : String) (ledgerOk : Bool) : SettleResult :=
  if client.currentWalletAddress = targetAddress then ⟨.validationError, false, store⟩
  else if client.walletData.gor_balance < 1 then ⟨.validationError, false, store⟩
  else if ledgerOk = false then ⟨.ledgerError, true, store⟩
  else
    match holdingsAfterBuy store client targetAddress with
    | none => ⟨.mirrorError, true, store⟩
    | some updatedTicketsHolding =>
      let buyerWallets :=
        updateBy Wallet.wallet_address
          (fun w => { w with gor_balance := client.walletData.gor_balance - 1,
                             tickets_holding := updatedTicketsHolding })
          store.wallets client.currentWalletAddress
      let store1 : MirrorStore := { store with wallets := buyerWallets }
      buyProfilePhase store1 client targetAddress

/-- App.jsx lines 1049-1060, the tail of `handleSellTicket` after the seller
wallet update produced `store1`: freshly read the target profile (a missing
row throws after the wallet write already happened) and write back its
`tickets_earned` decremented and floored at 0. -/
def sellProfilePhase (store1 : MirrorStore) (targetAddress : String) : SettleResult :=
  match findProfile store1 targetAddress with
  | none => ⟨.mirrorError, false, store1⟩
  | some targetUser =>
    let targetProfiles :=
      updateBy Profile.wallet_address
        (fun p => { p with tickets_earned := max 0 (targetUser.tickets_earned - 1) })
        store1.profiles targetAddress
    let store2 : MirrorStore := { store1 with profiles := targetProfiles }
    ⟨.ok, false, store2⟩

/-- Embedding of `handleSellTicket` (App.jsx lines 1012-1069).  Precheck: the
cached holdings contain an entry for the target with nonzero count (1019-1023).
No ledger transaction exists for selling (1026-1028), so `ledgerAttempted` is
always false.  Then the seller wallet update crediting 1 unit and storing the
decremented holdings (1031-1044), and the fresh read and floored decrement of
the target profile's `tickets_earned` (1049-1060). -/
def handleSellTicket (store : MirrorStore) (client : ClientState)
    (targetAddress : String) : SettleResult :=
  match findBy TicketHolding.wallet_address client.walletData.tickets_holding targetAddress with
  | none => ⟨.validationError, false, store⟩
  | some entry =>
    if entry.count = 0 then ⟨.validationError, false, store⟩
    else
      let updatedTicketsHolding := decFirst client.walletData.tickets_holding targetAddress
      let sellerWallets :=
        updateBy Wallet.wallet_address
          (fun w => { w with gor_balance := client.walletData.gor_balance + 1,
                             tickets_holding := updatedTicketsHolding })
          store.wallets client.currentWalletAddress
      let store1 : MirrorStore := { store with wallets := sellerWallets }
      sellProfilePhase store1 targetAddress

/-- Embedding of `handleLike` (App.jsx lines 651-695).  The post row is
fetched (657-661); `isCurrentlyLiked` is the flag the Post component passes
in (line 198, computed from its copy of the post).  On unlike the address is
filtered out and the count floored at 0 (673-674); on like the address is
appended and the count incremented (676-677); both fields are then written
back keyed on the post id (680-683). -/
def handleLike (store : MirrorStore) (currentWalletAddress : String) (postId : Nat)
    (isCurrentlyLiked : Bool) : MirrorStore :=
  match findPost store postId with
  | none => store
  | some postData =>
    let updatedLikes :=
      if isCurrentlyLiked then filterNe postData.likes currentWalletAddress
      else postData.likes ++ [currentWalletAddress]
    let newLikesCount : Int :=
      if isCurrentlyLiked then max 0 (postData.likes_count - 1)
      else postData.likes_count + 1
    let newPosts :=
      updateBy Post.id (fun p => { p with likes := updatedLikes, likes_count := newLikesCount })
        store.posts postId
    { store with posts := newPosts }

/-- Embedding of `handleComment` (App.jsx lines 697-749): fetch the post
(703-707), insert the comment row (715-720), increment the post's
`comments_count` (729-730), and notify the post author unless the author is
the commenter (735-744). -/
def handleComment (store : MirrorStore) (client : ClientState) (postId : Nat)
    (commentContent : String) : MirrorStore :=
  match findPost store postId with
  | none => store
  | some postData =>
    let newComment : Comment :=
      ⟨postId, client.currentWalletAddress, client.currentUserProfile.username, commentContent⟩
    let store1 : MirrorStore := { store with comments := store.comments ++ [newComment] }
    let newPosts :=
      updateBy Post.id (fun p => { p with comments_count := postData.comments_count + 1 })
        store1.posts postId
    let store2 : MirrorStore := { store1 with posts := newPosts }
    if postData.author_address = client.currentWalletAddress then store2
    else
      let commentNotif : Notification :=
        ⟨postData.author_address, client.currentWalletAddress, "comment",
          client.currentUserProfile.username ++ " commented on your post", some postId, false⟩
      { store2 with notifications := store2.notifications ++ [commentNotif] }

/-- Embedding of `handleRepost` (App.jsx lines 751-806): fetch the post
(757-761); if the acting address is already in the reposts list the attempt
is rejected with no write (772, 799-801); otherwise append the address,
increment `reposts_count`, write both back (772-779) and notify the author
unless the author is the reposter (789-798). -/
def handleRepost (store : MirrorStore) (client : ClientState) (postId : Nat) : MirrorStore :=
  match findPost store postId with
  | none => store
  | some postData =>
    if client.currentWalletAddress ∈ postData.reposts then store
    else
      let newPosts :=
        updateBy Post.id
          (fun p => { p with reposts := postData.reposts ++ [client.currentWalletAddress],
                             reposts_count := postData.reposts_count + 1 })
          store.posts postId
      let store1 : MirrorStore := { store with posts := newPosts }
      if postData.author_address = client.currentWalletAddress then store1
      else
        let repostNotif : Notification :=
          ⟨postData.author_address, client.currentWalletAddress, "repost",
            client.currentUserProfile.username ++ " reposted your post", some postId, false⟩
        { store1 with notifications := store1.notifications ++ [repostNotif] }

/-- App.jsx lines 841-872, the tail of `handleFollowToggle` after the acting
user's `following` write produced `store1`: freshly read the target profile
(a missing row throws after the first write already happened), recompute and
write back its `followers` list, and fire a `follow` notification only on
follow, never on unfollow or self-follow (864-872). -/
def followTargetPhase (store1 : MirrorStore) (client : ClientState)
    (targetAddress : String) (isFollowing : Bool) : MirrorStore :=
  match findProfile store1 targetAddress with
  | none => store1
  | some targetUserProfile =>
    let targetUserFollowers :=
      if isFollowing then filterNe targetUserProfile.followers client.currentWalletAddress
      else targetUserProfile.followers ++ [client.currentWalletAddress]
    let newProfiles2 :=
      updateBy Profile.wallet_address (fun p => { p with followers := targetUserFollowers })
        store1.profiles targetAddress
    let store2 : MirrorStore := { store1 with profiles := newProfiles2 }
    if isFollowing = false ∧ ¬ targetAddress = client.currentWalletAddress then
      let followNotif : Notification :=
        ⟨targetAddress, client.currentWalletAddress, "follow",
          client.currentUserProfile.username ++ " started following you", none, false⟩
      { store2 with notifications := store2.notifications ++ [followNotif] }
    else store2

/-- Embedding of `handleFollowToggle` (App.jsx lines 815-877): self-target
rejected (820); the acting user's `following` list is recomputed from the
cached profile and written back (827-836); then `followTargetPhase`
(841-872). -/
def handleFollowToggle (store : MirrorStore) (client : ClientState)
    (targetAddress : String) (isFollowing : Bool) : MirrorStore :=
  if client.currentWalletAddress = targetAddress then store
  else
    let currentUserFollowing :=
      if isFollowing then filterNe client.currentUserProfile.following targetAddress
      else client.currentUserProfile.following ++ [targetAddress]
    let newProfiles :=
      updateBy Profile.wallet_address (fun p => { p with following := currentUserFollowing })
        store.profiles client.currentWalletAddress
    let store1 : MirrorStore := { store with profiles := newProfiles }
    followTargetPhase store1 client targetAddress isFollowing

/-- Embedding of `handleBlock` (App.jsx lines 879-906): self-block rejected
(884); if the target is already in the cached `blocked_users` list nothing is
written (890, 899-901); otherwise the appended list is written back keyed on
the acting user's address (891-895). -/
def handleBlock (store : MirrorStore) (client : ClientState) (targetAddress : String) :
    MirrorStore :=
  if client.currentWalletAddress = targetAddress then store
  else if targetAddress ∈ client.currentUserProfile.blocked_users then store
  else
    let newProfiles :=
      updateBy Profile.wallet_address
        (fun p => { p with blocked_users := client.currentUserProfile.blocked_users ++ [targetAddress] })
        store.profiles client.currentWalletAddress
    { store with profiles := newProfiles }

/-- One social operation on a post in the sequential (cache-synchronized)
semantics of claim C4: a like click toggles — the Post component passes
`isLiked = post.likes.includes(currentWalletAddress)` computed from its
current copy of the post (App.jsx lines 168 and 198) — and a repost click
calls `handleRepost`. -/
inductive SocialOp where
  | like (addr : String) (postId : Nat)
  | repost (addr : String) (username : String) (postId : Nat)
deriving DecidableEq

/-- Client state the Root component supplies for a social action by `addr`
(only the address and the cached profile's username matter to these
handlers; the wallet cache is unused by them). -/
def clientFor (addr username : String) : ClientState :=
  ⟨addr, ⟨addr, username, "", [], [], 0, []⟩, ⟨addr, 0, []⟩⟩

/-- The Post component's `isLiked` flag (App.jsx line 168): membership of the
acting address in the displayed post's likes list, false when the post is
missing. -/
def likedFlag : Option Post → String → Bool
  | some p, addr => decide (addr ∈ p.likes)
  | none, _ => false

/-- Apply one social operation, deriving the like toggle flag from the
current store exactly as the UI derives it from its refreshed cache. -/
def applyOp (store : MirrorStore) : SocialOp → MirrorStore
  | .like addr postId => handleLike store addr postId (likedFlag (findPost store postId) addr)
  | .repost addr username postId => handleRepost store (clientFor addr username) postId

/-- Apply a sequence of social operations left to right. -/
def applyOps (store : MirrorStore) : List SocialOp → MirrorStore
  | [] => store
  | op :: ops => applyOps (applyOp store op) ops

/-- Denormalized-counter invariant of a single post row: each counter equals
the cardinality of its set (the address list is duplicate-free and the
counter is its length). -/
def postCountsOk (p : Post) : Prop :=
  p.likes.Nodup ∧ p.likes_count = (p.likes.length : Int) ∧
  p.reposts.Nodup ∧ p.reposts_count = (p.reposts.length : Int)

/-- The counter invariant for every post row of the store. -/
def postsInvariant (store : MirrorStore) : Prop :=
  ∀ p ∈ store.posts, postCountsOk p

instance (p : Post) : Decidable (postCountsOk p) := by
  unfold postCountsOk
  infer_instance

instance (store : MirrorStore) : Decidable (postsInvariant store) := by
  unfold postsInvariant
  exact List.decidableBAll _ _

/-- Notification-fanout safety: the new store extends the old notification
list and no appended notification is addressed to the acting user. -/
def notifSafe (old new : MirrorStore) (actor : String) : Prop :=
  ∃ extra : List Notification, new.notifications = old.notifications ++ extra ∧
    ∀ n ∈ extra, ¬ n.recipient_address = actor

/-- Concrete fixture: profile of address A. -/
def profA : Profile := ⟨"A", "Alice", "", [], [], 0, []⟩

/-- Concrete fixture: profile of address B. -/
def profB : Profile := ⟨"B", "Bob", "", [], [], 0, []⟩

/-- Concrete fixture for the tipping claim: A holds 5 units, B has no wallet
row yet. -/
def c1store : MirrorStore := ⟨[profA, profB], [⟨"A", 5, []⟩], [], [], []⟩

/-- Concrete fixture: client A with cache in sync with `c1store`. -/
def c1client : ClientState := ⟨"A", profA, ⟨"A", 5, []⟩⟩

/-- Concrete fixture for the validation claim: A holds 0 units. -/
def c3store : MirrorStore := ⟨[profA, profB], [⟨"A", 0, []⟩], [], [], []⟩

/-- Concrete fixture: client A with cache in sync with `c3store`. -/
def c3client : ClientState := ⟨"A", profA, ⟨"A", 0, []⟩⟩

/-- Concrete fixture for the counter-invariant claim: one fresh post. -/
def c4store : MirrorStore := ⟨[], [], [⟨1, "A", "Alice", "hello", [], [], 0, 0, 0⟩], [], []⟩

/-- Concrete fixture for the buy/sell round-trip claim. -/
def c5store : MirrorStore := ⟨[profA, profB], [⟨"A", 5, []⟩], [], [], []⟩

/-- Concrete fixture: client A with cache in sync with `c5store`. -/
def c5client : ClientState := ⟨"A", profA, ⟨"A", 5, []⟩⟩

/-- Concrete fixture for the fresh-read claim: the stored balance of A is 0
while the client's cached copy claims 10. -/
def c6store : MirrorStore := ⟨[profA, profB], [⟨"A", 0, []⟩, ⟨"B", 0, []⟩], [], [], []⟩

/-- Concrete fixture: client A whose cached wallet disagrees with `c6store`. -/
def c6client : ClientState := ⟨"A", profA, ⟨"A", 10, []⟩⟩

/-- Concrete fixture for the conditional-update claim: the stored record of A
differs from the record the client last observed. -/
def c7store : MirrorStore := ⟨[profA, profB], [⟨"A", 3, []⟩], [], [], []⟩

/-- Concrete fixture: client A whose observed wallet record disagrees with
`c7store`. -/
def c7client : ClientState := ⟨"A", profA, ⟨"A", 7, []⟩⟩

/-- Concrete fixture: client A whose observed wallet record (balance 7, two
tickets for B) disagrees with `c7store`, used for the sell leg. -/
def c7sell : ClientState := ⟨"A", profA, ⟨"A", 7, [⟨"B", 2, "Bob"⟩]⟩⟩

/-- Concrete fixture for the repost claim: B already reposted post 1. -/
def c9store : MirrorStore := ⟨[], [], [⟨1, "A", "Alice", "hi", [], ["B"], 0, 1, 0⟩], [], []⟩

/-- Concrete fixture for the blocking claim: A has already blocked B. -/
def c10client : ClientState := ⟨"A", ⟨"A", "Alice", "", [], [], 0, ["B"]⟩, ⟨"A", 0, []⟩⟩

/-- Concrete fixture: store matching the profile cached in `c10client`. -/
def c10store : MirrorStore := ⟨[⟨"A", "Alice", "", [], [], 0, ["B"]⟩, profB], [], [], [], []⟩

section GatewayLemmas

variable {α κ : Type} [DecidableEq κ] (key : α → κ) (f : α → α)

theorem findBy_updateBy_self (hf : ∀ x, key (f x) = key x) (xs : List α) (k : κ) :
    findBy key (updateBy key f xs k) k = (findBy key xs k).map f := by
  induction xs with
  | nil => rfl
  | cons x xs ih =>
    by_cases h : key x = k
    · simp [findBy, updateBy, h, hf x]
    · simp [findBy, updateBy, h, ih]

theorem findBy_updateBy_ne (hf : ∀ x, key (f x) = key x) (xs : List α) {k k' : κ}
    (hne : k' ≠ k) : findBy key (updateBy key f xs k) k' = findBy key xs k' := by
  induction xs with
  | nil => rfl
  | cons x xs ih =>
    simp only [updateBy, findBy]
    by_cases h : key x = k
    · have h1 : ¬ key (f x) = k' := by
        rw [hf x, h]
        exact fun hh => hne hh.symm
      have h2 : ¬ key x = k' := fun hh => hne (hh ▸ h)
      simp only [if_pos h, if_neg h1, if_neg h2, ih]
    · by_cases h' : key x = k'
      · simp only [if_neg h, if_pos h']
      · simp only [if_neg h, if_neg h', ih]

theorem map_key_updateBy (hf : ∀ x, key (f x) = key x) (xs : List α) (k : κ) :
    (updateBy key f xs k).map key = xs.map key := by
  induction xs with
  | nil => rfl
  | cons x xs ih =>
    by_cases h : key x = k <;> simp [updateBy, h, hf x, ih]

theorem updateBy_eq_of_not_mem {xs : List α} {k : κ} (h : k ∉ xs.map key) :
    updateBy key f xs k = xs := by
  induction xs with
  | nil => rfl
  | cons x xs ih =>
    simp only [List.map_cons, List.mem_cons, not_or] at h
    have hx : ¬ key x = k := fun hh => h.1 hh.symm
    simp only [updateBy, if_neg hx, List.cons.injEq]
    exact ⟨trivial, ih h.2⟩

theorem findBy_eq_none_iff (xs : List α) (k : κ) :
    findBy key xs k = none ↔ k ∉ xs.map key := by
  induction xs with
  | nil => simp [findBy]
  | cons x xs ih =>
    by_cases h : key x = k
    · simp only [findBy, if_pos h, List.map_cons, List.mem_cons]
      constructor
      · intro hh
        exact Option.noConfusion hh
      · intro hh
        exact absurd (Or.inl h.symm) hh
    · simp only [findBy, if_neg h, List.map_cons, List.mem_cons]
      rw [ih]
      constructor
      · intro hh hor
        rcases hor with h1 | h2
        · exact h h1.symm
        · exact hh h2
      · intro hh h2
        exact hh (Or.inr h2)

theorem findBy_append_of_none {xs : List α} {k : κ} (h : findBy key xs k = none)
    (ys : List α) : findBy key (xs ++ ys) k = findBy key ys k := by
  induction xs with
  | nil => rfl
  | cons x xs ih =>
    by_cases hx : key x = k
    · simp [findBy, hx] at h
    · simp only [findBy, hx, if_false] at h ⊢
      exact ih h

theorem findBy_append_of_some {xs : List α} {k : κ} {v : α} (h : findBy key xs k = some v)
    (ys : List α) : findBy key (xs ++ ys) k = some v := by
  induction xs with
  | nil => simp [findBy] at h
  | cons x xs ih =>
    by_cases hx : key x = k
    · simp only [findBy, hx, if_true] at h ⊢
      exact h
    · simp only [findBy, hx, if_false] at h ⊢
      exact ih h

theorem mem_map_key_of_findBy {xs : List α} {k : κ} {v : α}
    (h : findBy key xs k = some v) : k ∈ xs.map key := by
  by_contra hk
  rw [← findBy_eq_none_iff key] at hk
  rw [h] at hk
  exact Option.noConfusion hk

end GatewayLemmas

theorem sumBal_append (xs ys : List Wallet) : sumBal (xs ++ ys) = sumBal xs + sumBal ys := by
  simp [sumBal]

theorem sumBal_updateBy (f : Wallet → Wallet) {xs : List Wallet} {k : String}
    {w : Wallet} (hnd : (xs.map Wallet.wallet_address).Nodup)
    (hfind : findBy Wallet.wallet_address xs k = some w) :
    sumBal (updateBy Wallet.wallet_address f xs k) =
      sumBal xs - w.gor_balance + (f w).gor_balance := by
  induction xs with
  | nil => simp [findBy] at hfind
  | cons x xs ih =>
    simp only [List.map_cons, List.nodup_cons] at hnd
    by_cases h : x.wallet_address = k
    · simp only [findBy, h, if_true, Option.some.injEq] at hfind
      subst hfind
      have hnm : k ∉ xs.map Wallet.wallet_address := h ▸ hnd.1
      rw [updateBy]
      simp only [h, if_true]
      rw [updateBy_eq_of_not_mem Wallet.wallet_address f hnm]
      simp [sumBal]
      ring
    · simp only [findBy, h, if_false] at hfind
      rw [updateBy]
      simp only [h, if_false]
      have := ih hnd.2 hfind
      simp only [sumBal, List.map_cons, List.sum_cons] at this ⊢
      rw [this]
      ring

section MoreGatewayLemmas

variable {α κ : Type} [DecidableEq κ] (key : α → κ)

theorem findBy_eq_none_of_forall {xs : List α} {k : κ} (h : ∀ x ∈ xs, ¬ key x = k) :
    findBy key xs k = none := by
  rw [findBy_eq_none_iff]
  intro hmem
  obtain ⟨x, hx, hk⟩ := List.mem_map.mp hmem
  exact h x hx hk

theorem findBy_some_mem {xs : List α} {k : κ} {v : α} (h : findBy key xs k = some v) :
    key v = k ∧ v ∈ xs := by
  induction xs with
  | nil => exact Option.noConfusion h
  | cons x xs ih =>
    by_cases hx : key x = k
    · simp only [findBy, if_pos hx, Option.some.injEq] at h
      subst h
      exact ⟨hx, List.mem_cons_self x xs⟩
    · simp only [findBy, if_neg hx] at h
      obtain ⟨h1, h2⟩ := ih h
      exact ⟨h1, List.mem_cons_of_mem x h2⟩

end MoreGatewayLemmas

theorem findBy_upsert_self_of_some {ws : List Wallet} {addr : String} {w : Wallet}
    (h : findBy Wallet.wallet_address ws addr = some w) (bal : Int) :
    findBy Wallet.wallet_address (upsertWalletBalance ws addr bal) addr =
      some { w with gor_balance := bal } := by
  have hmem := mem_map_key_of_findBy Wallet.wallet_address h
  rw [upsertWalletBalance, if_pos hmem]
  rw [findBy_updateBy_self Wallet.wallet_address
    (fun w => { w with gor_balance := bal }) (fun x => rfl) ws addr, h]
  rfl

theorem findBy_upsert_self_of_none {ws : List Wallet} {addr : String}
    (h : findBy Wallet.wallet_address ws addr = none) (bal : Int) :
    findBy Wallet.wallet_address (upsertWalletBalance ws addr bal) addr =
      some ⟨addr, bal, []⟩ := by
  have hmem := (findBy_eq_none_iff Wallet.wallet_address ws addr).mp h
  rw [upsertWalletBalance, if_neg hmem]
  rw [findBy_append_of_none Wallet.wallet_address h]
  simp [findBy]

theorem findBy_upsert_ne {ws : List Wallet} {addr k' : String} (hne : k' ≠ addr) (bal : Int) :
    findBy Wallet.wallet_address (upsertWalletBalance ws addr bal) k' =
      findBy Wallet.wallet_address ws k' := by
  rw [upsertWalletBalance]
  by_cases hmem : addr ∈ ws.map Wallet.wallet_address
  · rw [if_pos hmem]
    exact findBy_updateBy_ne Wallet.wallet_address
      (fun w => { w with gor_balance := bal }) (fun x => rfl) ws hne
  · rw [if_neg hmem]
    cases h' : findBy Wallet.wallet_address ws k' with
    | some v => exact findBy_append_of_some Wallet.wallet_address h' _
    | none =>
      rw [findBy_append_of_none Wallet.wallet_address h']
      simp only [findBy]
      rw [if_neg (fun hh => hne hh.symm)]

theorem sumBal_upsert_of_some {ws : List Wallet} {addr : String} {w : Wallet}
    (hnd : (ws.map Wallet.wallet_address).Nodup)
    (h : findBy Wallet.wallet_address ws addr = some w) (bal : Int) :
    sumBal (upsertWalletBalance ws addr bal) = sumBal ws - w.gor_balance + bal := by
  have hmem := mem_map_key_of_findBy Wallet.wallet_address h
  rw [upsertWalletBalance, if_pos hmem]
  exact sumBal_updateBy (fun w => { w with gor_balance := bal }) hnd h

theorem sumBal_upsert_of_none {ws : List Wallet} {addr : String}
    (h : findBy Wallet.wallet_address ws addr = none) (bal : Int) :
    sumBal (upsertWalletBalance ws addr bal) = sumBal ws + bal := by
  have hmem := (findBy_eq_none_iff Wallet.wallet_address ws addr).mp h
  rw [upsertWalletBalance, if_neg hmem, sumBal_append]
  simp [sumBal]

theorem mem_filterNe {xs : List String} {a x : String} :
    x ∈ filterNe xs a ↔ x ∈ xs ∧ x ≠ a := by
  induction xs with
  | nil => simp [filterNe]
  | cons y ys ih =>
    by_cases h : y = a
    · subst h
      simp only [filterNe, if_true]
      rw [ih]
      simp only [List.mem_cons]
      constructor
      · intro hh
        exact ⟨Or.inr hh.1, hh.2⟩
      · rintro ⟨h1 | h1, h2⟩
        · exact absurd h1 h2
        · exact ⟨h1, h2⟩
    · simp only [filterNe]
      rw [if_neg h]
      simp only [List.mem_cons, ih]
      constructor
      · rintro (h1 | ⟨h1, h2⟩)
        · subst h1
          exact ⟨Or.inl rfl, h⟩
        · exact ⟨Or.inr h1, h2⟩
      · rintro ⟨h1 | h1, h2⟩
        · exact Or.inl h1
        · exact Or.inr ⟨h1, h2⟩

theorem nodup_filterNe {xs : List String} (a : String) (h : xs.Nodup) :
    (filterNe xs a).Nodup := by
  induction xs with
  | nil => exact h
  | cons y ys ih =>
    rw [List.nodup_cons] at h
    by_cases hy : y = a
    · rw [filterNe, if_pos hy]
      exact ih h.2
    · rw [filterNe, if_neg hy, List.nodup_cons]
      exact ⟨fun hm => h.1 (mem_filterNe.mp hm).1, ih h.2⟩

theorem not_mem_filterNe (xs : List String) (a : String) : a ∉ filterNe xs a :=
  fun h => (mem_filterNe.mp h).2 rfl

theorem filterNe_of_not_mem {xs : List String} {a : String} (h : a ∉ xs) :
    filterNe xs a = xs := by
  induction xs with
  | nil => rfl
  | cons y ys ih =>
    simp only [List.mem_cons, not_or] at h
    simp only [filterNe]
    rw [if_neg (fun hh => h.1 hh.symm), ih h.2]

theorem length_filterNe_add_one {xs : List String} {a : String} (hnd : xs.Nodup)
    (ha : a ∈ xs) : (filterNe xs a).length + 1 = xs.length := by
  induction xs with
  | nil => exact absurd ha (List.not_mem_nil a)
  | cons y ys ih =>
    rw [List.nodup_cons] at hnd
    by_cases hy : y = a
    · subst hy
      simp only [filterNe, if_true]
      rw [filterNe_of_not_mem hnd.1]
      rfl
    · rcases List.mem_cons.mp ha with h1 | h1
      · exact absurd h1.symm hy
      · simp only [filterNe]
        rw [if_neg hy]
        simp only [List.length_cons]
        rw [← ih hnd.2 h1]

theorem decFirst_append_single {h : List TicketHolding} {a : String}
    (hna : ∀ t ∈ h, ¬ t.wallet_address = a) (u : String) :
    decFirst (h ++ [⟨a, 1, u⟩]) a = h := by
  induction h with
  | nil => simp [decFirst]
  | cons t ts ih =>
    have ht : ¬ t.wallet_address = a := hna t (List.mem_cons_self t ts)
    rw [List.cons_append, decFirst, if_neg ht,
      ih (fun x hx => hna x (List.mem_cons_of_mem t hx))]

theorem decFirst_bumpFirst {h : List TicketHolding} {a : String}
    (hc : ∀ t ∈ h, 1 ≤ t.count) : decFirst (bumpFirst h a) a = h := by
  induction h with
  | nil => rfl
  | cons t ts ih =>
    by_cases ht : t.wallet_address = a
    · rw [bumpFirst, if_pos ht, decFirst, if_pos ht]
      have h1 : 1 ≤ t.count := hc t (List.mem_cons_self t ts)
      have h2 : ¬ (t.count + 1 - 1 = 0) := by omega
      rw [if_neg h2]
      have h3 : t.count + 1 - 1 = t.count := by omega
      simp only [h3]
    · rw [bumpFirst, if_neg ht, decFirst, if_neg ht,
        ih (fun x hx => hc x (List.mem_cons_of_mem t hx))]

theorem findBy_bumpFirst_self (h : List TicketHolding) (a : String) :
    findBy TicketHolding.wallet_address (bumpFirst h a) a =
      (findBy TicketHolding.wallet_address h a).map
        (fun t => { t with count := t.count + 1 }) := by
  induction h with
  | nil => rfl
  | cons t ts ih =>
    by_cases ht : t.wallet_address = a
    · rw [bumpFirst, if_pos ht, findBy, findBy, if_pos ht]
      rw [show TicketHolding.wallet_address { t with count := t.count + 1 } = t.wallet_address from rfl]
      rw [if_pos ht]
      rfl
    · rw [bumpFirst, if_neg ht, findBy, findBy, if_neg ht, if_neg ht, ih]

theorem findBy_append_single_self {h : List TicketHolding} {a : String}
    (hn : findBy TicketHolding.wallet_address h a = none) (c : Int) (u : String) :
    findBy TicketHolding.wallet_address (h ++ [⟨a, c, u⟩]) a = some ⟨a, c, u⟩ := by
  rw [findBy_append_of_none TicketHolding.wallet_address hn]
  simp [findBy]

theorem notifSafe_of_eq {old new : MirrorStore} (actor : String)
    (h : new.notifications = old.notifications) : notifSafe old new actor :=
  ⟨[], by rw [h, List.append_nil], by simp⟩

theorem notifSafe_single {old new : MirrorStore} {actor : String} {n : Notification}
    (h : new.notifications = old.notifications ++ [n])
    (hn : ¬ n.recipient_address = actor) : notifSafe old new actor :=
  ⟨[n], h, by simpa using hn⟩

theorem notifSafe_trans_eq {store store1 new : MirrorStore} (actor : String)
    (h : store1.notifications = store.notifications)
    (hs : notifSafe store1 new actor) : notifSafe store new actor := by
  obtain ⟨extra, he, hx⟩ := hs
  exact ⟨extra, by rw [he, h], hx⟩

theorem followTargetPhase_notifSafe (store1 : MirrorStore) (client : ClientState)
    (targetAddress : String) (isFollowing : Bool) :
    notifSafe store1 (followTargetPhase store1 client targetAddress isFollowing)
      client.currentWalletAddress := by
  rcases hp : findProfile store1 targetAddress with _ | targetUserProfile
  · simp only [followTargetPhase, hp]
    exact notifSafe_of_eq _ rfl
  · simp only [followTargetPhase, hp]
    by_cases hc : isFollowing = false ∧ ¬ targetAddress = client.currentWalletAddress
    · rw [if_pos hc]
      exact notifSafe_single rfl (fun hh => hc.2 hh)
    · rw [if_neg hc]
      exact notifSafe_of_eq _ rfl

theorem buyProfilePhase_notifSafe (store1 : MirrorStore) (client : ClientState)
    (targetAddress : String) (hne : ¬ client.currentWalletAddress = targetAddress) :
    notifSafe store1 (buyProfilePhase store1 client targetAddress).store
      client.currentWalletAddress := by
  rcases hp : findProfile store1 targetAddress with _ | targetUser
  · simp only [buyProfilePhase, hp]
    exact notifSafe_of_eq _ rfl
  · simp only [buyProfilePhase, hp]
    exact notifSafe_single rfl (fun hh => hne hh.symm)

theorem handleComment_notifSafe (store : MirrorStore) (client : ClientState)
    (postId : Nat) (content : String) :
    notifSafe store (handleComment store client postId content)
      client.currentWalletAddress := by
  rcases hp : findPost store postId with _ | postData
  · simp only [handleComment, hp]
    exact notifSafe_of_eq _ rfl
  · simp only [handleComment, hp]
    by_cases ha : postData.author_address = client.currentWalletAddress
    · rw [if_pos ha]
      exact notifSafe_of_eq _ rfl
    · rw [if_neg ha]
      exact notifSafe_single rfl ha

theorem handleRepost_notifSafe (store : MirrorStore) (client : ClientState)
    (postId : Nat) :
    notifSafe store (handleRepost store client postId) client.currentWalletAddress := by
  rcases hp : findPost store postId with _ | postData
  · simp only [handleRepost, hp]
    exact notifSafe_of_eq _ rfl
  · simp only [handleRepost, hp]
    by_cases hmem : client.currentWalletAddress ∈ postData.reposts
    · rw [if_pos hmem]
      exact notifSafe_of_eq _ rfl
    · rw [if_neg hmem]
      by_cases ha : postData.author_address = client.currentWalletAddress
      · rw [if_pos ha]
        exact notifSafe_of_eq _ rfl
      · rw [if_neg ha]
        exact notifSafe_single rfl ha

theorem handleFollowToggle_notifSafe (store : MirrorStore) (client : ClientState)
    (targetAddress : String) (isFollowing : Bool) :
    notifSafe store (handleFollowToggle store client targetAddress isFollowing)
      client.currentWalletAddress := by
  by_cases hself : client.currentWalletAddress = targetAddress
  · simp only [handleFollowToggle]
    rw [if_pos hself]
    exact notifSafe_of_eq _ rfl
  · simp only [handleFollowToggle]
    rw [if_neg hself]
    exact notifSafe_trans_eq _ rfl
      (followTargetPhase_notifSafe _ client targetAddress isFollowing)

theorem handleTip_notifSafe (store : MirrorStore) (client : ClientState)
    (targetAddress : String) (amount : Int) (ledgerOk : Bool) :
    notifSafe store (handleTip store client targetAddress amount ledgerOk).store
      client.currentWalletAddress := by
  by_cases h1 : client.currentWalletAddress = targetAddress
  · simp only [handleTip]
    rw [if_pos h1]
    exact notifSafe_of_eq _ rfl
  · by_cases h2 : client.walletData.gor_balance < amount
    · simp only [handleTip]
      rw [if_neg h1, if_pos h2]
      exact notifSafe_of_eq _ rfl
    · by_cases h3 : amount ≤ 0
      · simp only [handleTip]
        rw [if_neg h1, if_neg h2, if_pos h3]
        exact notifSafe_of_eq _ rfl
      · cases ledgerOk with
        | false =>
          simp only [handleTip]
          rw [if_neg h1, if_neg h2, if_neg h3, if_pos trivial]
          exact notifSafe_of_eq _ rfl
        | true =>
          simp only [handleTip]
          rw [if_neg h1, if_neg h2, if_neg h3,
            if_neg (fun hh => Bool.noConfusion hh : ¬ (true = false))]
          exact notifSafe_single rfl (fun hh => h1 hh.symm)

theorem handleBuyTicket_notifSafe (store : MirrorStore) (client : ClientState)
    (targetAddress : String) (ledgerOk : Bool) :
    notifSafe store (handleBuyTicket store client targetAddress ledgerOk).store
      client.currentWalletAddress := by
  by_cases h1 : client.currentWalletAddress = targetAddress
  · simp only [handleBuyTicket]
    rw [if_pos h1]
    exact notifSafe_of_eq _ rfl
  · by_cases h2 : client.walletData.gor_balance < 1
    · simp only [handleBuyTicket]
      rw [if_neg h1, if_pos h2]
      exact notifSafe_of_eq _ rfl
    · cases ledgerOk with
      | false =>
        simp only [handleBuyTicket]
        rw [if_neg h1, if_neg h2, if_pos trivial]
        exact notifSafe_of_eq _ rfl
      | true =>
        simp only [handleBuyTicket]
        rw [if_neg h1, if_neg h2,
          if_neg (fun hh => Bool.noConfusion hh : ¬ (true = false))]
        rcases hh : holdingsAfterBuy store client targetAddress with _ | updated
        · simp only [hh]
          exact notifSafe_of_eq _ rfl
        · simp only [hh]
          exact notifSafe_trans_eq _ rfl (buyProfilePhase_notifSafe _ client targetAddress h1)

/-- C8: no operation that can emit a notification (comment, repost, follow,
tip, buyTicket) ever inserts a notification addressed to the acting sender:
each either aborts before the notification step or skips the insert on a
self-targeted action, so every appended notification has a recipient distinct
from the actor. -/
theorem no_self_notification (store : MirrorStore) (client : ClientState)
    (postId : Nat) (content targetAddress : String) (isFollowing : Bool)
    (amount : Int) (ledgerOk : Bool) :
    notifSafe store (handleComment store client postId content)
      client.currentWalletAddress ∧
    notifSafe store (handleRepost store client postId) client.currentWalletAddress ∧
    notifSafe store (handleFollowToggle store client targetAddress isFollowing)
      client.currentWalletAddress ∧
    notifSafe store (handleTip store client targetAddress amount ledgerOk).store
      client.currentWalletAddress ∧
    notifSafe store (handleBuyTicket store client targetAddress ledgerOk).store
      client.currentWalletAddress :=
  ⟨handleComment_notifSafe store client postId content,
   handleRepost_notifSafe store client postId,
   handleFollowToggle_notifSafe store client targetAddress isFollowing,
   handleTip_notifSafe store client targetAddress amount ledgerOk,
   handleBuyTicket_notifSafe store client targetAddress ledgerOk⟩

/-- C9: a repost attempt on a post whose reposts set already contains the
acting address is rejected: the store is returned entirely unchanged — no
post field is touched and no repost notification is inserted — so a repost
takes effect at most once per address per post. -/
theorem repost_rejected_when_already_reposted (store : MirrorStore)
    (client : ClientState) (postId : Nat) (postData : Post)
    (hp : findPost store postId = some postData)
    (hmem : client.currentWalletAddress ∈ postData.reposts) :
    handleRepost store client postId = store := by
  simp only [handleRepost, hp]
  rw [if_pos hmem]

/-- Witness for C9: B already reposted post 1 in the fixture store, so B's
second repost leaves the store untouched. -/
theorem repost_rejected_witness :
    handleRepost c9store (clientFor "B" "Bob") 1 = c9store :=
  repost_rejected_when_already_reposted c9store (clientFor "B" "Bob") 1
    ⟨1, "A", "Alice", "hi", [], ["B"], 0, 1, 0⟩ (by decide) (by decide)

/-- C2: for both settlement operations (tip and buyTicket), if the ledger
transfer fails or is not confirmed — the submission or confirmation step
throws, modelled by `ledgerOk = false` — then no mirror-store write of that
settlement is performed: the resulting store equals the input store, so every
wallet, profile, ticket-holding and notification record is exactly as it was. -/
theorem ledger_failure_writes_nothing (store : MirrorStore) (client : ClientState)
    (targetAddress : String) (amount : Int) :
    (handleTip store client targetAddress amount false).store = store ∧
    (handleBuyTicket store client targetAddress false).store = store := by
  constructor
  · simp only [handleTip]
    split
    · rfl
    · split
      · rfl
      · split
        · rfl
        · simp
  · simp only [handleBuyTicket]
    split
    · rfl
    · split
      · rfl
      · simp

/-- C3: with the client's cached wallet in sync with the stored wallet row,
`buyTicket` fails validation — attempting no ledger submission and writing
nothing — whenever the buyer's balance is below 1 or the target is the buyer,
and `tip` fails validation likewise whenever the amount is non-positive, the
recipient is the sender, or the sender's balance is below the amount. -/
theorem settlement_validation_rejects (store : MirrorStore) (client : ClientState)
    (targetAddress : String) (amount : Int) (ledgerOk : Bool) (w : Wallet)
    (hw : findWallet store client.currentWalletAddress = some w)
    (hc : client.walletData = w) :
    ((w.gor_balance < 1 ∨ targetAddress = client.currentWalletAddress) →
      handleBuyTicket store client targetAddress ledgerOk =
        ⟨.validationError, false, store⟩) ∧
    ((amount ≤ 0 ∨ targetAddress = client.currentWalletAddress ∨
        w.gor_balance < amount) →
      handleTip store client targetAddress amount ledgerOk =
        ⟨.validationError, false, store⟩) := by
  constructor
  · intro h
    by_cases hself : client.currentWalletAddress = targetAddress
    · simp only [handleBuyTicket]
      rw [if_pos hself]
    · rcases h with hb | hb
      · simp only [handleBuyTicket]
        rw [if_neg hself, hc, if_pos hb]
      · exact absurd hb.symm hself
  · intro h
    by_cases hself : client.currentWalletAddress = targetAddress
    · simp only [handleTip]
      rw [if_pos hself]
    · rcases h with hb | hb | hb
      · by_cases hlow : w.gor_balance < amount
        · simp only [handleTip]
          rw [if_neg hself, hc, if_pos hlow]
        · simp only [handleTip]
          rw [if_neg hself, hc, if_neg hlow, if_pos hb]
      · exact absurd hb.symm hself
      · simp only [handleTip]
        rw [if_neg hself, hc, if_pos hb]

/-- Witness for C3 at a concrete state: A has stored and cached balance 0, so
a ticket purchase and a 5-unit tip targeting B are both rejected by
validation with no ledger attempt and no write. -/
theorem settlement_validation_rejects_witness :
    handleBuyTicket c3store c3client "B" true = ⟨.validationError, false, c3store⟩ ∧
    handleTip c3store c3client "B" 5 true = ⟨.validationError, false, c3store⟩ := by
  have h := settlement_validation_rejects c3store c3client "B" 5 true ⟨"A", 0, []⟩
    (by decide) (by decide)
  exact ⟨h.1 (Or.inl (by decide)), h.2 (Or.inr (Or.inr (by decide)))⟩

/-- C10: blocking is idempotent at the public interface: a block request for a
target already in the acting user's blocked list performs no mirror-store
write, blocked lists never acquire duplicate entries, and — with the cached
profile in sync with the stored one — block-after-block equals a single
block. -/
theorem block_idempotent (store : MirrorStore) (client : ClientState)
    (targetAddress : String) :
    (targetAddress ∈ client.currentUserProfile.blocked_users →
      handleBlock store client targetAddress = store) ∧
    (findProfile store client.currentWalletAddress = some client.currentUserProfile →
      client.currentUserProfile.blocked_users.Nodup →
      ∀ p1, findProfile (handleBlock store client targetAddress)
          client.currentWalletAddress = some p1 →
        p1.blocked_users.Nodup ∧
        handleBlock (handleBlock store client targetAddress)
            { client with currentUserProfile := p1 } targetAddress =
          handleBlock store client targetAddress) := by
  obtain ⟨addr, pr, wd⟩ := client
  dsimp only
  constructor
  · intro hmem
    by_cases hself : addr = targetAddress
    · simp only [handleBlock]
      rw [if_pos hself]
    · simp only [handleBlock]
      rw [if_neg hself, if_pos hmem]
  · intro hp hnd p1 hp1
    by_cases hself : addr = targetAddress
    · have hb : handleBlock store ⟨addr, pr, wd⟩ targetAddress = store := by
        simp only [handleBlock]
        rw [if_pos hself]
      rw [hb] at hp1 ⊢
      rw [hp] at hp1
      obtain rfl := Option.some.inj hp1
      refine ⟨hnd, ?_⟩
      simp only [handleBlock]
      rw [if_pos hself]
    · by_cases hmem : targetAddress ∈ pr.blocked_users
      · have hb : handleBlock store ⟨addr, pr, wd⟩ targetAddress = store := by
          simp only [handleBlock]
          rw [if_neg hself, if_pos hmem]
        rw [hb] at hp1 ⊢
        rw [hp] at hp1
        obtain rfl := Option.some.inj hp1
        refine ⟨hnd, ?_⟩
        simp only [handleBlock]
        rw [if_neg hself, if_pos hmem]
      · simp only [handleBlock, if_neg hself, if_neg hmem, findProfile] at hp1
        rw [findBy_updateBy_self Profile.wallet_address
          (fun q => { q with blocked_users := pr.blocked_users ++ [targetAddress] })
          (fun x => rfl) store.profiles addr] at hp1
        simp only [findProfile] at hp
        rw [hp] at hp1
        rw [Option.map_some'] at hp1
        obtain rfl := Option.some.inj hp1
        constructor
        · refine List.Nodup.append hnd (List.nodup_singleton targetAddress) ?_
          intro x hx hx2
          rw [List.mem_singleton] at hx2
          subst hx2
          exact hmem hx
        · simp only [handleBlock]
          rw [if_neg hself]
          rw [if_pos (by simp : targetAddress ∈ pr.blocked_users ++ [targetAddress])]

/-- Witness for C10: A has already blocked B in the fixture, so a further
block of B writes nothing. -/
theorem block_idempotent_witness : handleBlock c10store c10client "B" = c10store :=
  (block_idempotent c10store c10client "B").1 (by decide)

/-- C1: a tip settlement with sender s, recipient r, amount a > 0, r distinct
from s and sender balance at least a (the cached wallet in sync with the
stored row, wallet keys unique) that completes successfully decreases the
mirrored balance of s by exactly a, increases the mirrored balance of r by
exactly a (the recipient row being created by upsert with balance a when
absent), and leaves the sum of mirrored balances over all wallet rows
unchanged. -/
theorem tip_settlement_transfers_balance (store : MirrorStore) (client : ClientState)
    (targetAddress : String) (amount : Int) (w : Wallet)
    (hnd : (store.wallets.map Wallet.wallet_address).Nodup)
    (hw : findWallet store client.currentWalletAddress = some w)
    (hc : client.walletData = w)
    (hne : targetAddress ≠ client.currentWalletAddress)
    (hpos : 0 < amount)
    (hbal : amount ≤ w.gor_balance) :
    (handleTip store client targetAddress amount true).outcome = .ok ∧
    walletBalance (handleTip store client targetAddress amount true).store
        client.currentWalletAddress = w.gor_balance - amount ∧
    walletBalance (handleTip store client targetAddress amount true).store targetAddress =
      walletBalance store targetAddress + amount ∧
    sumBal (handleTip store client targetAddress amount true).store.wallets =
      sumBal store.wallets := by
  have hself : ¬ client.currentWalletAddress = targetAddress := fun h => hne h.symm
  have hlt : ¬ client.walletData.gor_balance < amount := by
    rw [hc]
    exact not_lt.mpr hbal
  have hle : ¬ amount ≤ 0 := not_le.mpr hpos
  simp only [findWallet] at hw
  simp only [handleTip]
  rw [if_neg hself, if_neg hlt, if_neg hle,
    if_neg (fun hh => Bool.noConfusion hh : ¬ (true = false)), hc]
  refine ⟨rfl, ?_, ?_, ?_⟩
  · simp only [walletBalance, findWallet]
    rw [findBy_upsert_ne hself]
    rw [findBy_updateBy_self Wallet.wallet_address
      (fun w' => { w' with gor_balance := w.gor_balance - amount })
      (fun x => rfl) store.wallets client.currentWalletAddress, hw]
    rfl
  · simp only [walletBalance, findWallet]
    rw [findBy_updateBy_ne Wallet.wallet_address
      (fun w' => { w' with gor_balance := w.gor_balance - amount })
      (fun x => rfl) store.wallets hne]
    rcases hr : findBy Wallet.wallet_address store.wallets targetAddress with _ | rw2
    · have hr2 : findBy Wallet.wallet_address (updateBy Wallet.wallet_address
          (fun w' => { w' with gor_balance := w.gor_balance - amount })
          store.wallets client.currentWalletAddress) targetAddress = none := by
        rw [findBy_updateBy_ne Wallet.wallet_address
          (fun w' => { w' with gor_balance := w.gor_balance - amount })
          (fun x => rfl) store.wallets hne]
        exact hr
      rw [findBy_upsert_self_of_none hr2]
      simp only [balOf]
    · have hr2 : findBy Wallet.wallet_address (updateBy Wallet.wallet_address
          (fun w' => { w' with gor_balance := w.gor_balance - amount })
          store.wallets client.currentWalletAddress) targetAddress = some rw2 := by
        rw [findBy_updateBy_ne Wallet.wallet_address
          (fun w' => { w' with gor_balance := w.gor_balance - amount })
          (fun x => rfl) store.wallets hne]
        exact hr
      rw [findBy_upsert_self_of_some hr2]
      simp only [balOf]
  · simp only [findWallet]
    rw [findBy_updateBy_ne Wallet.wallet_address
      (fun w' => { w' with gor_balance := w.gor_balance - amount })
      (fun x => rfl) store.wallets hne]
    have hndu : ((updateBy Wallet.wallet_address
        (fun w' => { w' with gor_balance := w.gor_balance - amount })
        store.wallets client.currentWalletAddress).map Wallet.wallet_address).Nodup := by
      rw [map_key_updateBy Wallet.wallet_address
        (fun w' => { w' with gor_balance := w.gor_balance - amount })
        (fun x => rfl) store.wallets client.currentWalletAddress]
      exact hnd
    have hsend : sumBal (updateBy Wallet.wallet_address
        (fun w' => { w' with gor_balance := w.gor_balance - amount })
        store.wallets client.currentWalletAddress) = sumBal store.wallets - amount := by
      rw [sumBal_updateBy (fun w' => { w' with gor_balance := w.gor_balance - amount })
        hnd hw]
      simp only
      ring
    rcases hr : findBy Wallet.wallet_address store.wallets targetAddress with _ | rw2
    · have hr2 : findBy Wallet.wallet_address (updateBy Wallet.wallet_address
          (fun w' => { w' with gor_balance := w.gor_balance - amount })
          store.wallets client.currentWalletAddress) targetAddress = none := by
        rw [findBy_updateBy_ne Wallet.wallet_address
          (fun w' => { w' with gor_balance := w.gor_balance - amount })
          (fun x => rfl) store.wallets hne]
        exact hr
      rw [sumBal_upsert_of_none hr2, hsend]
      simp only [balOf]
      ring
    · have hr2 : findBy Wallet.wallet_address (updateBy Wallet.wallet_address
          (fun w' => { w' with gor_balance := w.gor_balance - amount })
          store.wallets client.currentWalletAddress) targetAddress = some rw2 := by
        rw [findBy_updateBy_ne Wallet.wallet_address
          (fun w' => { w' with gor_balance := w.gor_balance - amount })
          (fun x => rfl) store.wallets hne]
        exact hr
      rw [sumBal_upsert_of_some hndu hr2, hsend]
      simp only [balOf]
      ring

/-- Witness for C1: in the fixture A holds 5 and B has no wallet row; tipping
3 to B succeeds, leaves A at 2, creates B at 3, and conserves the total. -/
theorem tip_settlement_witness :
    (handleTip c1store c1client "B" 3 true).outcome = .ok ∧
    walletBalance (handleTip c1store c1client "B" 3 true).store "A" = (5 : Int) - 3 ∧
    walletBalance (handleTip c1store c1client "B" 3 true).store "B" =
      walletBalance c1store "B" + 3 ∧
    sumBal (handleTip c1store c1client "B" 3 true).store.wallets =
      sumBal c1store.wallets := by
  have h := tip_settlement_transfers_balance c1store c1client "B" 3 ⟨"A", 5, []⟩
    (by decide) (by decide) (by decide) (by decide) (by decide) (by decide)
  exact h

theorem mem_updateBy {α κ : Type} [DecidableEq κ] (key : α → κ) (f : α → α)
    {xs : List α} {k : κ} {y : α} (hy : y ∈ updateBy key f xs k) :
    ∃ x ∈ xs, y = if key x = k then f x else x := by
  induction xs with
  | nil => exact absurd hy (List.not_mem_nil y)
  | cons x xs ih =>
    rcases List.mem_cons.mp hy with h | h
    · exact ⟨x, List.mem_cons_self x xs, h⟩
    · obtain ⟨x2, hx2, he⟩ := ih h
      exact ⟨x2, List.mem_cons_of_mem x hx2, he⟩

theorem handleLike_preserves_postsInvariant (store : MirrorStore) (addr : String)
    (postId : Nat) (hinv : postsInvariant store) :
    postsInvariant (handleLike store addr postId (likedFlag (findPost store postId) addr)) := by
  rcases hp : findPost store postId with _ | p
  · simp only [handleLike, hp]
    exact hinv
  · have hpmem := findBy_some_mem Post.id hp
    have hpok : postCountsOk p := hinv p hpmem.2
    by_cases hmem : addr ∈ p.likes
    · have hflag : likedFlag (some p) addr = true := by
        simp [likedFlag, hmem]
      rw [hflag]
      simp only [handleLike, hp, if_pos rfl, if_true]
      intro q hq
      obtain ⟨x, hx, he⟩ := mem_updateBy Post.id _ hq
      by_cases hk : x.id = postId
      · rw [he, if_pos hk]
        obtain ⟨hnodup, hcount, hrn, hrc⟩ := hpok
        have hlen := length_filterNe_add_one hnodup hmem
        refine ⟨nodup_filterNe addr hnodup, ?_, (hinv x hx).2.2.1, (hinv x hx).2.2.2⟩
        simp only
        rw [hcount]
        have : (1 : Int) ≤ (p.likes.length : Int) := by
          have : 1 ≤ p.likes.length := List.length_pos.mpr (List.ne_nil_of_mem hmem)
          exact_mod_cast this
        omega
      · rw [he, if_neg hk]
        exact hinv x hx
    · have hflag : likedFlag (some p) addr = false := by
        simp [likedFlag, hmem]
      rw [hflag]
      simp only [handleLike, hp]
      rw [if_neg (fun hh : false = true => Bool.noConfusion hh)]
      intro q hq
      obtain ⟨x, hx, he⟩ := mem_updateBy Post.id _ hq
      by_cases hk : x.id = postId
      · rw [he, if_pos hk]
        obtain ⟨hnodup, hcount, hrn, hrc⟩ := hpok
        refine ⟨?_, ?_, (hinv x hx).2.2.1, (hinv x hx).2.2.2⟩
        · refine List.Nodup.append hnodup (List.nodup_singleton addr) ?_
          intro z hz hz2
          rw [List.mem_singleton] at hz2
          subst hz2
          exact hmem hz
        · simp only [List.length_append, List.length_singleton]
          rw [hcount]
          push_cast
          ring
      · rw [he, if_neg hk]
        exact hinv x hx

theorem handleRepost_preserves_postsInvariant (store : MirrorStore)
    (client : ClientState) (postId : Nat) (hinv : postsInvariant store) :
    postsInvariant (handleRepost store client postId) := by
  rcases hp : findPost store postId with _ | p
  · simp only [handleRepost, hp]
    exact hinv
  · have hpmem := findBy_some_mem Post.id hp
    have hpok : postCountsOk p := hinv p hpmem.2
    simp only [handleRepost, hp]
    by_cases hmem : client.currentWalletAddress ∈ p.reposts
    · rw [if_pos hmem]
      exact hinv
    · rw [if_neg hmem]
      have hposts : ∀ q ∈ updateBy Post.id
          (fun q => { q with reposts := p.reposts ++ [client.currentWalletAddress],
                             reposts_count := p.reposts_count + 1 }) store.posts postId,
          postCountsOk q := by
        intro q hq
        obtain ⟨x, hx, he⟩ := mem_updateBy Post.id _ hq
        by_cases hk : x.id = postId
        · rw [he, if_pos hk]
          obtain ⟨hln, hlc, hnodup, hcount⟩ := hpok
          refine ⟨(hinv x hx).1, (hinv x hx).2.1, ?_, ?_⟩
          · refine List.Nodup.append hnodup
              (List.nodup_singleton client.currentWalletAddress) ?_
            intro z hz hz2
            rw [List.mem_singleton] at hz2
            subst hz2
            exact hmem hz
          · simp only [List.length_append, List.length_singleton]
            rw [hcount]
            push_cast
            ring
        · rw [he, if_neg hk]
          exact hinv x hx
      by_cases ha : p.author_address = client.currentWalletAddress
      · rw [if_pos ha]
        exact hposts
      · rw [if_neg ha]
        exact hposts

theorem applyOp_preserves_postsInvariant (store : MirrorStore) (op : SocialOp)
    (hinv : postsInvariant store) : postsInvariant (applyOp store op) := by
  cases op with
  | like addr postId =>
    simp only [applyOp]
    exact handleLike_preserves_postsInvariant store addr postId hinv
  | repost addr username postId =>
    simp only [applyOp]
    exact handleRepost_preserves_postsInvariant store (clientFor addr username) postId hinv

/-- C4: for every store whose posts satisfy the counter invariant and every
sequence of like, unlike and repost operations by any addresses (a like click
toggles like/unlike according to the current likes set, exactly as the UI
derives the flag), every post's likes_count equals the cardinality of its
likes set and reposts_count the cardinality of its reposts set after the
whole sequence — hence after every operation, since every prefix is itself
such a sequence. -/
theorem counters_match_sets (ops : List SocialOp) (store : MirrorStore)
    (hinv : postsInvariant store) : postsInvariant (applyOps store ops) := by
  induction ops generalizing store with
  | nil => exact hinv
  | cons op ops ih =>
    simp only [applyOps]
    exact ih (applyOp store op) (applyOp_preserves_postsInvariant store op hinv)

/-- Witness for C4: a like, a repost and an unlike by B on the fixture post
keep both counters equal to their set cardinalities. -/
theorem counters_match_sets_witness :
    postsInvariant (applyOps c4store
      [.like "B" 1, .repost "B" "Bob" 1, .like "B" 1]) :=
  counters_match_sets [.like "B" 1, .repost "B" "Bob" 1, .like "B" 1] c4store
    (by decide)

theorem findBy_none_forall {α κ : Type} [DecidableEq κ] (key : α → κ) {xs : List α}
    {k : κ} (h : findBy key xs k = none) : ∀ x ∈ xs, ¬ key x = k := by
  intro x hx hk
  exact (findBy_eq_none_iff key xs k).mp h (List.mem_map.mpr ⟨x, hx, hk⟩)

theorem buyProfilePhase_wallets (store1 : MirrorStore) (client : ClientState)
    (t : String) : (buyProfilePhase store1 client t).store.wallets = store1.wallets := by
  rcases hp : findProfile store1 t with _ | tu
  · simp only [buyProfilePhase, hp]
  · simp only [buyProfilePhase, hp]

theorem buyProfilePhase_outcome (store1 : MirrorStore) (client : ClientState)
    (t : String) (tu : Profile) (hp : findProfile store1 t = some tu) :
    (buyProfilePhase store1 client t).outcome = .ok := by
  simp only [buyProfilePhase, hp]

theorem buyProfilePhase_ledgerAttempted (store1 : MirrorStore) (client : ClientState)
    (t : String) : (buyProfilePhase store1 client t).ledgerAttempted = true := by
  rcases hp : findProfile store1 t with _ | tu
  · simp only [buyProfilePhase, hp]
  · simp only [buyProfilePhase, hp]

theorem buyProfilePhase_profile_self (store1 : MirrorStore) (client : ClientState)
    (t : String) (tu : Profile) (hp : findProfile store1 t = some tu) :
    findProfile (buyProfilePhase store1 client t).store t =
      some { tu with tickets_earned := tu.tickets_earned + 1 } := by
  have hp2 := hp
  simp only [findProfile] at hp2
  simp only [buyProfilePhase, findProfile, hp2]
  rw [findBy_updateBy_self Profile.wallet_address
    (fun p => { p with tickets_earned := tu.tickets_earned + 1 })
    (fun x => rfl) store1.profiles t]
  rw [hp2]
  rfl

theorem sellProfilePhase_wallets (store1 : MirrorStore) (t : String) :
    (sellProfilePhase store1 t).store.wallets = store1.wallets := by
  rcases hp : findProfile store1 t with _ | tu
  · simp only [sellProfilePhase, hp]
  · simp only [sellProfilePhase, hp]

theorem sellProfilePhase_outcome (store1 : MirrorStore) (t : String) (tu : Profile)
    (hp : findProfile store1 t = some tu) :
    (sellProfilePhase store1 t).outcome = .ok := by
  simp only [sellProfilePhase, hp]

theorem sellProfilePhase_profile_self (store1 : MirrorStore) (t : String)
    (tu : Profile) (hp : findProfile store1 t = some tu) :
    findProfile (sellProfilePhase store1 t).store t =
      some { tu with tickets_earned := max 0 (tu.tickets_earned - 1) } := by
  have hp2 := hp
  simp only [findProfile] at hp2
  simp only [sellProfilePhase, findProfile, hp2]
  rw [findBy_updateBy_self Profile.wallet_address
    (fun p => { p with tickets_earned := max 0 (tu.tickets_earned - 1) })
    (fun x => rfl) store1.profiles t]
  rw [hp2]
  rfl

/-- Counterexample to C6: A's stored balance is 0 but the cached copy claims
10.  A 5-unit tip to B nevertheless attempts the ledger transfer, completes
with outcome ok, and overwrites A's row with 10 - 5 = 5: both the precheck
that gated submission and the baseline of the sender update came from the
cached Local State Cache copy, where a fresh read of the authoritative row
(balance 0 < 5) would have failed validation and attempted no submission. -/
theorem settlement_precheck_cached_counterexample :
    walletBalance c6store "A" = 0 ∧
    (handleTip c6store c6client "B" 5 true).ledgerAttempted = true ∧
    (handleTip c6store c6client "B" 5 true).outcome = .ok ∧
    walletBalance (handleTip c6store c6client "B" 5 true).store "A" = 5 := by
  decide

/-- C6 amended: for both settlement operations the balance precheck gating
ledger submission, and the baseline of the sender's new mirrored balance, are
taken from the client's cached Local State Cache copy (`walletData`), not
from a fresh read of the authoritative wallet record: the ledger step is
attempted exactly when the cached balance passes the precheck, on the tip
success path the sender row is overwritten with cached balance minus amount,
and on the buyTicket success path the buyer row is overwritten with cached
balance minus 1 — in every case whatever the stored balance was. -/
theorem settlement_precheck_uses_cache (store : MirrorStore) (client : ClientState)
    (targetAddress : String) (amount : Int) :
    ((handleTip store client targetAddress amount true).ledgerAttempted = true ↔
      ¬ client.currentWalletAddress = targetAddress ∧
        amount ≤ client.walletData.gor_balance ∧ 0 < amount) ∧
    ((handleBuyTicket store client targetAddress true).ledgerAttempted = true ↔
      ¬ client.currentWalletAddress = targetAddress ∧
        1 ≤ client.walletData.gor_balance) ∧
    (∀ w, findWallet store client.currentWalletAddress = some w →
      ¬ client.currentWalletAddress = targetAddress →
      amount ≤ client.walletData.gor_balance → 0 < amount →
      walletBalance (handleTip store client targetAddress amount true).store
          client.currentWalletAddress =
        client.walletData.gor_balance - amount) ∧
    (∀ w U, findWallet store client.currentWalletAddress = some w →
      holdingsAfterBuy store client targetAddress = some U →
      ¬ client.currentWalletAddress = targetAddress →
      1 ≤ client.walletData.gor_balance →
      walletBalance (handleBuyTicket store client targetAddress true).store
          client.currentWalletAddress =
        client.walletData.gor_balance - 1) := by
  refine ⟨?_, ?_, ?_, ?_⟩
  · by_cases h1 : client.currentWalletAddress = targetAddress
    · simp only [handleTip]
      rw [if_pos h1]
      constructor
      · intro habs
        exact Bool.noConfusion habs
      · rintro ⟨hn, -, -⟩
        exact absurd h1 hn
    · by_cases h2 : client.walletData.gor_balance < amount
      · simp only [handleTip]
        rw [if_neg h1, if_pos h2]
        constructor
        · intro habs
          exact Bool.noConfusion habs
        · rintro ⟨-, hle2, -⟩
          exact absurd hle2 (not_le.mpr h2)
      · by_cases h3 : amount ≤ 0
        · simp only [handleTip]
          rw [if_neg h1, if_neg h2, if_pos h3]
          constructor
          · intro habs
            exact Bool.noConfusion habs
          · rintro ⟨-, -, hpos⟩
            exact absurd h3 (not_le.mpr hpos)
        · simp only [handleTip]
          rw [if_neg h1, if_neg h2, if_neg h3,
            if_neg (fun hh => Bool.noConfusion hh : ¬ (true = false))]
          exact iff_of_true rfl ⟨h1, not_lt.mp h2, not_le.mp h3⟩
  · by_cases h1 : client.currentWalletAddress = targetAddress
    · simp only [handleBuyTicket]
      rw [if_pos h1]
      constructor
      · intro habs
        exact Bool.noConfusion habs
      · rintro ⟨hn, -⟩
        exact absurd h1 hn
    · by_cases h2 : client.walletData.gor_balance < 1
      · simp only [handleBuyTicket]
        rw [if_neg h1, if_pos h2]
        constructor
        · intro habs
          exact Bool.noConfusion habs
        · rintro ⟨-, hle2⟩
          exact absurd hle2 (not_le.mpr h2)
      · simp only [handleBuyTicket]
        rw [if_neg h1, if_neg h2,
          if_neg (fun hh => Bool.noConfusion hh : ¬ (true = false))]
        rcases hh : holdingsAfterBuy store client targetAddress with _ | updated
        · simp only [hh]
          exact iff_of_true (by simp) ⟨h1, not_lt.mp h2⟩
        · simp only [hh]
          rw [buyProfilePhase_ledgerAttempted]
          exact iff_of_true (by simp) ⟨h1, not_lt.mp h2⟩
  · intro w hw h1 hle hpos
    have h2 : ¬ client.walletData.gor_balance < amount := not_lt.mpr hle
    have h3 : ¬ amount ≤ 0 := not_le.mpr hpos
    simp only [findWallet] at hw
    simp only [handleTip]
    rw [if_neg h1, if_neg h2, if_neg h3,
      if_neg (fun hh => Bool.noConfusion hh : ¬ (true = false))]
    simp only [walletBalance, findWallet]
    rw [findBy_upsert_ne h1]
    rw [findBy_updateBy_self Wallet.wallet_address
      (fun w' => { w' with gor_balance := client.walletData.gor_balance - amount })
      (fun x => rfl) store.wallets client.currentWalletAddress, hw]
    rfl
  · intro w U hw hU hne hle1
    have h2 : ¬ client.walletData.gor_balance < 1 := not_lt.mpr hle1
    simp only [findWallet] at hw
    simp only [handleBuyTicket, hU]
    rw [if_neg hne, if_neg h2,
      if_neg (fun hh => Bool.noConfusion hh : ¬ (true = false))]
    simp only [walletBalance, findWallet]
    rw [buyProfilePhase_wallets]
    dsimp only
    rw [findBy_updateBy_self Wallet.wallet_address
      (fun w' => { w' with gor_balance := client.walletData.gor_balance - 1,
                           tickets_holding := U })
      (fun x => rfl) store.wallets client.currentWalletAddress, hw]
    rfl

/-- Witness for the amended C6 at a concrete state: with stored balance 0 and
cached balance 10, the 5-unit tip attempts the ledger and writes 10 - 5, and
a ticket purchase writes 10 - 1. -/
theorem settlement_precheck_uses_cache_witness :
    (handleTip c6store c6client "B" 5 true).ledgerAttempted = true ∧
    walletBalance (handleTip c6store c6client "B" 5 true).store "A" = (10 : Int) - 5 ∧
    walletBalance (handleBuyTicket c6store c6client "B" true).store "A" =
      (10 : Int) - 1 := by
  have h := settlement_precheck_uses_cache c6store c6client "B" 5
  exact ⟨h.1.mpr ⟨by decide, by decide, by decide⟩,
    h.2.2.1 ⟨"A", 0, []⟩ (by decide) (by decide) (by decide) (by decide),
    h.2.2.2 ⟨"A", 0, []⟩ [⟨"B", 1, "Bob"⟩] (by decide) (by decide) (by decide) (by decide)⟩

/-- Counterexample to C7: the stored record of A (balance 3) differs from the
record the client last observed (its cached copy, balance 7), yet the tip's
mirror writes go through — outcome ok, the store is modified, and A's row is
overwritten with 7 - 2 = 5.  No compare-and-set against the observed record
and no stale-update failure exist anywhere in the settlement writes. -/
theorem conditional_update_counterexample :
    findWallet c7store "A" = some ⟨"A", 3, []⟩ ∧
    c7client.walletData = ⟨"A", 7, []⟩ ∧
    (handleTip c7store c7client "B" 2 true).outcome = .ok ∧
    ¬ (handleTip c7store c7client "B" 2 true).store = c7store ∧
    walletBalance (handleTip c7store c7client "B" 2 true).store "A" = 5 := by
  decide

/-- C7 amended: every mirror write of the settlement operations — tip's
sender update and recipient upsert, buyTicket's buyer-wallet and
target-profile updates, sellTicket's seller-wallet and target-profile
updates — is an unconditional last-writer-wins update keyed only on the
primary key: with the prechecks passing, each write takes effect whatever
the stored records contain — in particular whether or not they still equal
the records the client last observed — and no stale-update error is ever
produced. -/
theorem mirror_writes_unconditional (store : MirrorStore) (client : ClientState)
    (targetAddress : String) (amount : Int)
    (h1 : ¬ client.currentWalletAddress = targetAddress)
    (hle : amount ≤ client.walletData.gor_balance) (hpos : 0 < amount) :
    (handleTip store client targetAddress amount true).outcome = .ok ∧
    (∀ w, findWallet store client.currentWalletAddress = some w →
      findWallet (handleTip store client targetAddress amount true).store
          client.currentWalletAddress =
        some { w with gor_balance := client.walletData.gor_balance - amount }) ∧
    walletBalance (handleTip store client targetAddress amount true).store
        targetAddress =
      walletBalance store targetAddress + amount ∧
    (∀ w U, findWallet store client.currentWalletAddress = some w →
      holdingsAfterBuy store client targetAddress = some U →
      1 ≤ client.walletData.gor_balance →
      findWallet (handleBuyTicket store client targetAddress true).store
          client.currentWalletAddress =
        some { w with gor_balance := client.walletData.gor_balance - 1,
                      tickets_holding := U }) ∧
    (∀ U tu, holdingsAfterBuy store client targetAddress = some U →
      1 ≤ client.walletData.gor_balance →
      findProfile store targetAddress = some tu →
      findProfile (handleBuyTicket store client targetAddress true).store
          targetAddress =
        some { tu with tickets_earned := tu.tickets_earned + 1 }) ∧
    (∀ entry, findBy TicketHolding.wallet_address client.walletData.tickets_holding
        targetAddress = some entry → ¬ entry.count = 0 →
      ∀ w, findWallet store client.currentWalletAddress = some w →
        findWallet (handleSellTicket store client targetAddress).store
            client.currentWalletAddress =
          some { w with gor_balance := client.walletData.gor_balance + 1,
                        tickets_holding := decFirst client.walletData.tickets_holding
                          targetAddress }) ∧
    (∀ entry, findBy TicketHolding.wallet_address client.walletData.tickets_holding
        targetAddress = some entry → ¬ entry.count = 0 →
      ∀ tu, findProfile store targetAddress = some tu →
        findProfile (handleSellTicket store client targetAddress).store
            targetAddress =
          some { tu with tickets_earned := max 0 (tu.tickets_earned - 1) }) := by
  have h2 : ¬ client.walletData.gor_balance < amount := not_lt.mpr hle
  have h3 : ¬ amount ≤ 0 := not_le.mpr hpos
  refine ⟨?_, ?_, ?_, ?_, ?_, ?_, ?_⟩
  · simp only [handleTip]
    rw [if_neg h1, if_neg h2, if_neg h3,
      if_neg (fun hh => Bool.noConfusion hh : ¬ (true = false))]
  · intro w hw
    simp only [findWallet] at hw
    simp only [handleTip]
    rw [if_neg h1, if_neg h2, if_neg h3,
      if_neg (fun hh => Bool.noConfusion hh : ¬ (true = false))]
    simp only [findWallet]
    rw [findBy_upsert_ne h1]
    rw [findBy_updateBy_self Wallet.wallet_address
      (fun w' => { w' with gor_balance := client.walletData.gor_balance - amount })
      (fun x => rfl) store.wallets client.currentWalletAddress, hw]
    rfl
  · have hne : targetAddress ≠ client.currentWalletAddress := fun h => h1 h.symm
    simp only [handleTip]
    rw [if_neg h1, if_neg h2, if_neg h3,
      if_neg (fun hh => Bool.noConfusion hh : ¬ (true = false))]
    simp only [walletBalance, findWallet]
    rw [findBy_updateBy_ne Wallet.wallet_address
      (fun w' => { w' with gor_balance := client.walletData.gor_balance - amount })
      (fun x => rfl) store.wallets hne]
    rcases hr : findBy Wallet.wallet_address store.wallets targetAddress with _ | rw2
    · have hr2 : findBy Wallet.wallet_address (updateBy Wallet.wallet_address
          (fun w' => { w' with gor_balance := client.walletData.gor_balance - amount })
          store.wallets client.currentWalletAddress) targetAddress = none := by
        rw [findBy_updateBy_ne Wallet.wallet_address
          (fun w' => { w' with gor_balance := client.walletData.gor_balance - amount })
          (fun x => rfl) store.wallets hne]
        exact hr
      rw [findBy_upsert_self_of_none hr2]
      simp only [balOf]
    · have hr2 : findBy Wallet.wallet_address (updateBy Wallet.wallet_address
          (fun w' => { w' with gor_balance := client.walletData.gor_balance - amount })
          store.wallets client.currentWalletAddress) targetAddress = some rw2 := by
        rw [findBy_updateBy_ne Wallet.wallet_address
          (fun w' => { w' with gor_balance := client.walletData.gor_balance - amount })
          (fun x => rfl) store.wallets hne]
        exact hr
      rw [findBy_upsert_self_of_some hr2]
      simp only [balOf]
  · intro w U hw hU hle1
    have hb2 : ¬ client.walletData.gor_balance < 1 := not_lt.mpr hle1
    simp only [findWallet] at hw
    simp only [handleBuyTicket, hU]
    rw [if_neg h1, if_neg hb2,
      if_neg (fun hh => Bool.noConfusion hh : ¬ (true = false))]
    simp only [findWallet]
    rw [buyProfilePhase_wallets]
    dsimp only
    rw [findBy_updateBy_self Wallet.wallet_address
      (fun w' => { w' with gor_balance := client.walletData.gor_balance - 1,
                           tickets_holding := U })
      (fun x => rfl) store.wallets client.currentWalletAddress, hw]
    rfl
  · intro U tu hU hle1 htu
    have hb2 : ¬ client.walletData.gor_balance < 1 := not_lt.mpr hle1
    simp only [handleBuyTicket, hU]
    rw [if_neg h1, if_neg hb2,
      if_neg (fun hh => Bool.noConfusion hh : ¬ (true = false))]
    exact buyProfilePhase_profile_self _ client targetAddress tu htu
  · intro entry hentry hcount w hw
    simp only [findWallet] at hw
    simp only [handleSellTicket, hentry]
    rw [if_neg hcount]
    simp only [findWallet]
    rw [sellProfilePhase_wallets]
    dsimp only
    rw [findBy_updateBy_self Wallet.wallet_address
      (fun w' => { w' with gor_balance := client.walletData.gor_balance + 1,
                           tickets_holding := decFirst client.walletData.tickets_holding
                             targetAddress })
      (fun x => rfl) store.wallets client.currentWalletAddress, hw]
    rfl
  · intro entry hentry hcount tu htu
    simp only [handleSellTicket, hentry]
    rw [if_neg hcount]
    exact sellProfilePhase_profile_self _ targetAddress tu htu

/-- Witness for the amended C7 at concrete states where the stored record of
A (balance 3) differs from the observed cached record (balance 7): every
settlement write still takes effect — tip leaves A at 7 - 2 and credits B,
buyTicket leaves A at 7 - 1 with the new holding and bumps B's profile, and
sellTicket (from a cache holding two tickets for B) leaves A at 7 + 1 with
the decremented holding and floors B's profile. -/
theorem mirror_writes_unconditional_witness :
    ((handleTip c7store c7client "B" 2 true).outcome = .ok ∧
    findWallet (handleTip c7store c7client "B" 2 true).store "A" =
      some ⟨"A", (7 : Int) - 2, []⟩ ∧
    walletBalance (handleTip c7store c7client "B" 2 true).store "B" =
      walletBalance c7store "B" + 2 ∧
    findWallet (handleBuyTicket c7store c7client "B" true).store "A" =
      some ⟨"A", (7 : Int) - 1, [⟨"B", 1, "Bob"⟩]⟩ ∧
    findProfile (handleBuyTicket c7store c7client "B" true).store "B" =
      some { profB with tickets_earned := profB.tickets_earned + 1 }) ∧
    (findWallet (handleSellTicket c7store c7sell "B").store "A" =
      some ⟨"A", (7 : Int) + 1, decFirst [⟨"B", 2, "Bob"⟩] "B"⟩ ∧
    findProfile (handleSellTicket c7store c7sell "B").store "B" =
      some { profB with tickets_earned := max 0 (profB.tickets_earned - 1) }) := by
  have h := mirror_writes_unconditional c7store c7client "B" 2
    (by decide) (by decide) (by decide)
  have hs := mirror_writes_unconditional c7store c7sell "B" 2
    (by decide) (by decide) (by decide)
  refine ⟨⟨h.1, h.2.1 ⟨"A", 3, []⟩ (by decide), h.2.2.1, ?_, ?_⟩, ?_, ?_⟩
  · exact h.2.2.2.1 ⟨"A", 3, []⟩ [⟨"B", 1, "Bob"⟩] (by decide) (by decide) (by decide)
  · exact h.2.2.2.2.1 [⟨"B", 1, "Bob"⟩] profB (by decide) (by decide) (by decide)
  · exact hs.2.2.2.2.2.1 ⟨"B", 2, "Bob"⟩ (by decide) (by decide) ⟨"A", 3, []⟩ (by decide)
  · exact hs.2.2.2.2.2.2 ⟨"B", 2, "Bob"⟩ (by decide) (by decide) profB (by decide)

/-- C5: with the cached wallet in sync with the stored row, positive-count
holdings, an existing target profile with non-negative tickets_earned and a
distinct target, `buyTicket(T)` followed — after the cache refreshes to the
written buyer row `w1` — by `sellTicket(T)` succeeds on both legs, restores
the buyer's wallet row exactly (pre-buy balance and holdings, so a holding
entry whose count returned to 0 has been removed rather than zeroed), and
restores `tickets_earned` on T's profile to its pre-buy value. -/
theorem buy_sell_roundtrip (store : MirrorStore) (client : ClientState)
    (targetAddress : String) (w : Wallet) (tp : Profile) (w1 : Wallet)
    (hw : findWallet store client.currentWalletAddress = some w)
    (hc : client.walletData = w)
    (hself : ¬ client.currentWalletAddress = targetAddress)
    (hbal : 1 ≤ w.gor_balance)
    (hp : findProfile store targetAddress = some tp)
    (hte : 0 ≤ tp.tickets_earned)
    (hcounts : ∀ t ∈ w.tickets_holding, 1 ≤ t.count)
    (hw1 : findWallet (handleBuyTicket store client targetAddress true).store
      client.currentWalletAddress = some w1) :
    (handleBuyTicket store client targetAddress true).outcome = .ok ∧
    (handleSellTicket (handleBuyTicket store client targetAddress true).store
        { client with walletData := w1 } targetAddress).outcome = .ok ∧
    findWallet (handleSellTicket (handleBuyTicket store client targetAddress true).store
        { client with walletData := w1 } targetAddress).store
      client.currentWalletAddress = some w ∧
    findProfile (handleSellTicket (handleBuyTicket store client targetAddress true).store
        { client with walletData := w1 } targetAddress).store targetAddress = some tp ∧
    ((∀ t ∈ w.tickets_holding, ¬ t.wallet_address = targetAddress) →
      ∃ wf, findWallet (handleSellTicket
          (handleBuyTicket store client targetAddress true).store
          { client with walletData := w1 } targetAddress).store
        client.currentWalletAddress = some wf ∧
        ∀ t2 ∈ wf.tickets_holding, ¬ t2.wallet_address = targetAddress) := by
  obtain ⟨addr, pr, wd⟩ := client
  dsimp only at hw hc hself hw1 ⊢
  rw [hc] at hw1 ⊢
  obtain ⟨U, hU, e, hU1, hU2, hU3⟩ :
      ∃ U, holdingsAfterBuy store ⟨addr, pr, w⟩ targetAddress = some U ∧
        ∃ e, findBy TicketHolding.wallet_address U targetAddress = some e ∧
          ¬ e.count = 0 ∧ decFirst U targetAddress = w.tickets_holding := by
    rcases hfh : findBy TicketHolding.wallet_address w.tickets_holding targetAddress
      with _ | entry
    · refine ⟨w.tickets_holding ++ [⟨targetAddress, 1, tp.username⟩], ?_,
        ⟨targetAddress, 1, tp.username⟩, ?_, ?_, ?_⟩
      · simp only [holdingsAfterBuy, hfh, hp]
      · exact findBy_append_single_self hfh 1 tp.username
      · dsimp only
        omega
      · exact decFirst_append_single (findBy_none_forall _ hfh) tp.username
    · have hentrymem := findBy_some_mem TicketHolding.wallet_address hfh
      have hc1 : 1 ≤ entry.count := hcounts entry hentrymem.2
      refine ⟨bumpFirst w.tickets_holding targetAddress, ?_,
        { entry with count := entry.count + 1 }, ?_, ?_, ?_⟩
      · simp only [holdingsAfterBuy, hfh]
      · rw [findBy_bumpFirst_self, hfh]
        rfl
      · dsimp only
        omega
      · exact decFirst_bumpFirst hcounts
  have h2 : ¬ w.gor_balance < 1 := not_lt.mpr hbal
  have hbuy : handleBuyTicket store ⟨addr, pr, w⟩ targetAddress true =
      buyProfilePhase (MirrorStore.mk store.profiles
        (updateBy Wallet.wallet_address
          (fun w' => { w' with gor_balance := w.gor_balance - 1, tickets_holding := U })
          store.wallets addr)
        store.posts store.comments store.notifications) ⟨addr, pr, w⟩ targetAddress := by
    simp only [handleBuyTicket, hU]
    rw [if_neg hself, if_neg h2,
      if_neg (fun hh => Bool.noConfusion hh : ¬ (true = false))]
  rw [hbuy] at hw1 ⊢
  have hw' := hw
  simp only [findWallet] at hw'
  have hpX : findProfile (MirrorStore.mk store.profiles
      (updateBy Wallet.wallet_address
        (fun w' => { w' with gor_balance := w.gor_balance - 1, tickets_holding := U })
        store.wallets addr)
      store.posts store.comments store.notifications) targetAddress = some tp := hp
  have hw1' : w1 = { w with gor_balance := w.gor_balance - 1, tickets_holding := U } := by
    simp only [findWallet] at hw1
    rw [buyProfilePhase_wallets] at hw1
    dsimp only at hw1
    rw [findBy_updateBy_self Wallet.wallet_address
      (fun w' => { w' with gor_balance := w.gor_balance - 1, tickets_holding := U })
      (fun x => rfl) store.wallets addr, hw'] at hw1
    rw [Option.map_some'] at hw1
    exact (Option.some.inj hw1).symm
  subst hw1'
  simp only [handleSellTicket, hU1]
  rw [if_neg hU2]
  simp only [hU3, Int.sub_add_cancel]
  have hpB : findProfile (buyProfilePhase (MirrorStore.mk store.profiles
      (updateBy Wallet.wallet_address
        (fun w' => { w' with gor_balance := w.gor_balance - 1, tickets_holding := U })
        store.wallets addr)
      store.posts store.comments store.notifications) ⟨addr, pr, w⟩ targetAddress).store
      targetAddress = some { tp with tickets_earned := tp.tickets_earned + 1 } :=
    buyProfilePhase_profile_self _ _ _ tp hpX
  have hpS : findProfile (MirrorStore.mk
      (buyProfilePhase (MirrorStore.mk store.profiles
        (updateBy Wallet.wallet_address
          (fun w' => { w' with gor_balance := w.gor_balance - 1, tickets_holding := U })
          store.wallets addr)
        store.posts store.comments store.notifications) ⟨addr, pr, w⟩ targetAddress).store.profiles
      (updateBy Wallet.wallet_address
        (fun w' => { w' with gor_balance := w.gor_balance,
                             tickets_holding := w.tickets_holding })
        (buyProfilePhase (MirrorStore.mk store.profiles
          (updateBy Wallet.wallet_address
            (fun w' => { w' with gor_balance := w.gor_balance - 1, tickets_holding := U })
            store.wallets addr)
          store.posts store.comments store.notifications) ⟨addr, pr, w⟩ targetAddress).store.wallets
        addr)
      (buyProfilePhase (MirrorStore.mk store.profiles
        (updateBy Wallet.wallet_address
          (fun w' => { w' with gor_balance := w.gor_balance - 1, tickets_holding := U })
          store.wallets addr)
        store.posts store.comments store.notifications) ⟨addr, pr, w⟩ targetAddress).store.posts
      (buyProfilePhase (MirrorStore.mk store.profiles
        (updateBy Wallet.wallet_address
          (fun w' => { w' with gor_balance := w.gor_balance - 1, tickets_holding := U })
          store.wallets addr)
        store.posts store.comments store.notifications) ⟨addr, pr, w⟩ targetAddress).store.comments
      (buyProfilePhase (MirrorStore.mk store.profiles
        (updateBy Wallet.wallet_address
          (fun w' => { w' with gor_balance := w.gor_balance - 1, tickets_holding := U })
          store.wallets addr)
        store.posts store.comments store.notifications)
        ⟨addr, pr, w⟩ targetAddress).store.notifications)
      targetAddress = some { tp with tickets_earned := tp.tickets_earned + 1 } := hpB
  refine ⟨buyProfilePhase_outcome _ _ _ tp hpX, ?_, ?_, ?_, ?_⟩
  · exact sellProfilePhase_outcome _ _ _ hpB
  · simp only [findWallet]
    rw [sellProfilePhase_wallets]
    dsimp only
    rw [buyProfilePhase_wallets]
    dsimp only
    rw [findBy_updateBy_self Wallet.wallet_address
      (fun w' => { w' with gor_balance := w.gor_balance,
                           tickets_holding := w.tickets_holding })
      (fun x => rfl)
      (updateBy Wallet.wallet_address
        (fun w' => { w' with gor_balance := w.gor_balance - 1, tickets_holding := U })
        store.wallets addr) addr]
    rw [findBy_updateBy_self Wallet.wallet_address
      (fun w' => { w' with gor_balance := w.gor_balance - 1, tickets_holding := U })
      (fun x => rfl) store.wallets addr, hw']
    simp only [Option.map_some']
  · rw [sellProfilePhase_profile_self _ _ _ hpS]
    dsimp only
    rw [show max 0 (tp.tickets_earned + 1 - 1) = tp.tickets_earned from by
      rw [Int.add_sub_cancel]
      exact max_eq_right hte]
  · intro hnone
    refine ⟨w, ?_, hnone⟩
    simp only [findWallet]
    rw [sellProfilePhase_wallets]
    dsimp only
    rw [buyProfilePhase_wallets]
    dsimp only
    rw [findBy_updateBy_self Wallet.wallet_address
      (fun w' => { w' with gor_balance := w.gor_balance,
                           tickets_holding := w.tickets_holding })
      (fun x => rfl)
      (updateBy Wallet.wallet_address
        (fun w' => { w' with gor_balance := w.gor_balance - 1, tickets_holding := U })
        store.wallets addr) addr]
    rw [findBy_updateBy_self Wallet.wallet_address
      (fun w' => { w' with gor_balance := w.gor_balance - 1, tickets_holding := U })
      (fun x => rfl) store.wallets addr, hw']
    simp only [Option.map_some']

/-- Witness for C5: A (balance 5, no holdings) buys a ticket for B and sells
it back; both legs succeed, A's wallet row returns to balance 5 with no
holding entry for B, and B's tickets_earned returns to 0. -/
theorem buy_sell_roundtrip_witness :
    (handleBuyTicket c5store c5client "B" true).outcome = .ok ∧
    (handleSellTicket (handleBuyTicket c5store c5client "B" true).store
        { c5client with walletData := ⟨"A", 4, [⟨"B", 1, "Bob"⟩]⟩ } "B").outcome = .ok ∧
    findWallet (handleSellTicket (handleBuyTicket c5store c5client "B" true).store
        { c5client with walletData := ⟨"A", 4, [⟨"B", 1, "Bob"⟩]⟩ } "B").store
      c5client.currentWalletAddress = some ⟨"A", 5, []⟩ ∧
    findProfile (handleSellTicket (handleBuyTicket c5store c5client "B" true).store
        { c5client with walletData := ⟨"A", 4, [⟨"B", 1, "Bob"⟩]⟩ } "B").store "B" =
      some profB ∧
    ((∀ t ∈ (⟨"A", 5, []⟩ : Wallet).tickets_holding, ¬ t.wallet_address = "B") →
      ∃ wf, findWallet (handleSellTicket
          (handleBuyTicket c5store c5client "B" true).store
          { c5client with walletData := ⟨"A", 4, [⟨"B", 1, "Bob"⟩]⟩ } "B").store
        c5client.currentWalletAddress = some wf ∧
        ∀ t2 ∈ wf.tickets_holding, ¬ t2.wallet_address = "B") :=
  buy_sell_roundtrip c5store c5client "B" ⟨"A", 5, []⟩ profB ⟨"A", 4, [⟨"B", 1, "Bob"⟩]⟩
    (by decide) (by decide) (by decide) (by decide) (by decide) (by decide)
    (by decide) (by decide)

end GorSocial
